import Mathlib

/-!
A verification development for the `pintarray` package
(`src/pintarray/pintarray.py`): unit-aware labeled arrays built on a
pint-style unit registry.

The Python module is shallowly embedded below.  Numeric buffers are
lists of rationals, the unit metadata (`attrs['units']`) is a string
field of `PintArray`, Python exceptions are the error side of
`Except`, and pint's `UnitsContainer` values are canonical association
lists from unit name to integer exponent.  The pint registry itself is
an external collaborator of the repository; the parts of it the module
calls are modelled from the spec's Unit Registry Adapter contract with
a finite table of unit definitions covering the units exercised here.

Python compares functions by identity: `xr.DataArray.__sub__` and
`operator.sub` are distinct objects.  The embedding therefore models
the arithmetic callables passed around by `_add_sub` / `_mul_div` as
an enumeration of function identities, so that tests such as
`op == operator.sub` keep their Python meaning.
-/

namespace Pintarray

/-- Modelled from the spec: the registry's `dimensionality` query maps a
decomposition to exponents of base physical dimensions; the dimensions
appearing in the modelled unit table are length, time and temperature. -/
structure Dim where
  length : Int
  time : Int
  temperature : Int
deriving DecidableEq

/-- pint's `UnitsContainer`: a canonical mapping from unit name to exponent
(sorted by name, zero exponents omitted). -/
abbrev UnitsContainer := List (String × Int)

/-- `uc[u]`: the exponent of unit `u` in a container (`self._units[name]`). -/
def ucExp (uc : UnitsContainer) (u : String) : Int :=
  ((uc.find? (fun p => p.1 = u)).map (fun p => p.2)).getD 0

/-- `UnitsContainer.rename`, as used by `PintArray._add_sub` to turn an
offset component into its `delta_` form. -/
def ucRename (uc : UnitsContainer) (old new : String) : UnitsContainer :=
  uc.map (fun p => if p.1 = old then (new, p.2) else p)

/-- Add an exponent into a canonical container, keeping it sorted and
dropping components that cancel to zero. -/
def ucInsertAdd : UnitsContainer → String → Int → UnitsContainer
  | [], u, e => if e = 0 then [] else [(u, e)]
  | (v, f) :: rest, u, e =>
    if u = v then (if f + e = 0 then rest else (v, f + e) :: rest)
    else if u < v then (if e = 0 then (v, f) :: rest else (u, e) :: (v, f) :: rest)
    else (v, f) :: ucInsertAdd rest u e

/-- `operator.mul` on unit containers: exponents add. -/
def ucMul (a b : UnitsContainer) : UnitsContainer :=
  b.foldl (fun acc p => ucInsertAdd acc p.1 p.2) a

/-- `operator.truediv` on unit containers: exponents subtract. -/
def ucDiv (a b : UnitsContainer) : UnitsContainer :=
  b.foldl (fun acc p => ucInsertAdd acc p.1 (-p.2)) a

/-- Raise a container to an integer power (exponents scale). -/
def ucPow (uc : UnitsContainer) (e : Int) : UnitsContainer :=
  if e = 0 then [] else uc.map (fun p => (p.1, p.2 * e))

/-- Modelled from the spec: one registry entry for a named unit —
multiplicativity flag, dimensionality, root-units reduction
(decomposition, scale factor, additive offset) and the reference
decomposition the unit is defined against. -/
structure UnitInfo where
  is_multiplicative : Bool
  dim : Dim
  root_uc : UnitsContainer
  root_scale : ℚ
  root_offset : ℚ
  reference : UnitsContainer

/-- Modelled from the spec: the Unit Registry collaborator's unit
definitions (pint's default registry plus the custom families installed
at module import).  A finite table restricted to the units the claims
exercise; angle units are omitted because their scale factor is
irrational.  `degC` is the offset (non-multiplicative) unit, `delta_degC`
its multiplicative difference unit. -/
def unitTable : List (String × UnitInfo) := [
  ("meter", ⟨true, ⟨1, 0, 0⟩, [("meter", 1)], 1, 0, [("meter", 1)]⟩),
  ("kilometer", ⟨true, ⟨1, 0, 0⟩, [("meter", 1)], 1000, 0, [("meter", 1)]⟩),
  ("second", ⟨true, ⟨0, 1, 0⟩, [("second", 1)], 1, 0, [("second", 1)]⟩),
  ("kelvin", ⟨true, ⟨0, 0, 1⟩, [("kelvin", 1)], 1, 0, [("kelvin", 1)]⟩),
  ("degC", ⟨false, ⟨0, 0, 1⟩, [("kelvin", 1)], 1, 27315 / 100, [("kelvin", 1)]⟩),
  ("delta_degC", ⟨true, ⟨0, 0, 1⟩, [("kelvin", 1)], 1, 0, [("kelvin", 1)]⟩),
  ("count", ⟨true, ⟨0, 0, 0⟩, [("count", 1)], 1, 0, [("count", 1)]⟩),
  ("percent", ⟨true, ⟨0, 0, 0⟩, [("count", 1)], 1 / 100, 0, [("count", 1)]⟩)]

/-- Modelled from the spec: parsing a unit string into its canonical
decomposition; the registry recognizes the empty string and
`dimensionless` as the empty decomposition, and each named unit parses
to the singleton decomposition of itself.  `none` stands for the
registry's `UndefinedUnitError`. -/
def parseUnit (s : String) : Option UnitsContainer :=
  if s = "" ∨ s = "dimensionless" then some []
  else (unitTable.find? (fun p => p.1 = s)).map (fun p => [(p.1, (1 : Int))])

/-- Fallback entry for names outside the table (never reached from
containers produced by `parseUnit`). -/
def defaultInfo : UnitInfo := ⟨true, ⟨0, 0, 0⟩, [], 1, 0, []⟩

/-- Registry lookup of a named unit's definition (`unit_registry._units[u]`). -/
def infoOf (u : String) : UnitInfo :=
  ((unitTable.find? (fun p => p.1 = u)).map (fun p => p.2)).getD defaultInfo

def dimScaled (e : Int) (d : Dim) : Dim :=
  ⟨e * d.length, e * d.time, e * d.temperature⟩

def dimAdd (a b : Dim) : Dim :=
  ⟨a.length + b.length, a.time + b.time, a.temperature + b.temperature⟩

/-- Dimensionality of a decomposition: exponent-weighted sum of the
component units' dimensionalities. -/
def dimOfUC (uc : UnitsContainer) : Dim :=
  uc.foldl (fun acc p => dimAdd acc (dimScaled p.2 (infoOf p.1).dim)) ⟨0, 0, 0⟩

/-- Scale-factor half of pint's `get_root_units` on a container. -/
def rootScaleOf (uc : UnitsContainer) : ℚ :=
  uc.foldl (fun acc p => acc * (infoOf p.1).root_scale ^ p.2) 1

/-- Container half of pint's `get_root_units` on a container. -/
def rootContainerOf (uc : UnitsContainer) : UnitsContainer :=
  uc.foldl (fun acc p => ucMul acc (ucPow (infoOf p.1).root_uc p.2)) []

/-- pint's `unit_registry.get_root_units`: factor and root decomposition. -/
def get_root_units (uc : UnitsContainer) : ℚ × UnitsContainer :=
  (rootScaleOf uc, rootContainerOf uc)

/-- The additive offset of a decomposition relative to its root units:
nonzero only for a single offset unit with exponent one (affine
conversions are only defined in that shape). -/
def offsetOfUC : UnitsContainer → ℚ
  | [(u, 1)] => (infoOf u).root_offset
  | _ => 0

/-- pint's `str()` rendering of a container (the empty container prints
as `dimensionless`, a single exponent-one unit prints as its name). -/
def render : UnitsContainer → String
  | [] => "dimensionless"
  | [(u, 1)] => u
  | uc => String.intercalate " * " (uc.map (fun p => p.1 ++ " ** " ++ toString p.2))

/-- Modelled from the spec: the reference decomposition of a compound
unit, used by `has_compatible_delta` to match a `delta_` unit with its
offset unit (`unit_registry(unit)._units.reference`). -/
def ucReference (uc : UnitsContainer) : UnitsContainer :=
  uc.foldl (fun acc p => ucMul acc (ucPow (infoOf p.1).reference p.2)) []

/-- The symbol substitution performed in `PintArrayUnitRegistry.get_quantity`
and `is_valid_unit` (`pintarray.py:20-23, 46-48`): Python's
`str.replace` with the single-character patterns `%` and `°`. -/
def pyReplaceChar (c : Char) (repl : List Char) : List Char → List Char
  | [] => []
  | x :: xs => (if x = c then repl else [x]) ++ pyReplaceChar c repl xs

/-- `input.replace('%', 'percent').replace('°', 'degree')`. -/
def normalize (s : String) : String :=
  ⟨pyReplaceChar '°' "degree".data (pyReplaceChar '%' "percent".data s.data)⟩

/-- Python array index payloads that end up inside exception objects:
either a `UnitsContainer` or a plain string (the module mixes both). -/
inductive ErrArg
  | uc (u : UnitsContainer)
  | str (s : String)
deriving DecidableEq

/-- The exceptions the module can raise. -/
inductive PintError
  | dimensionalityError (u1 u2 : ErrArg) (d1 d2 : Option Dim)
  | offsetUnitCalculusError (u1 u2 : ErrArg)
  | undefinedUnitError (s : String)
  | valueError (msg : String)
  | typeError (msg : String)
  | keyError (msg : String)
  | notImplementedError
deriving DecidableEq

def errArgText : ErrArg → String
  | .uc u => render u
  | .str s => s

/-- `str(err)`: the rendered message of an exception, as used by
`to_units` when it re-raises a `DimensionalityError` as `ValueError`. -/
def PintError.message : PintError → String
  | .dimensionalityError u1 u2 _ _ =>
      "Cannot convert from " ++ errArgText u1 ++ " to " ++ errArgText u2
  | .offsetUnitCalculusError u1 u2 =>
      "Ambiguous operation with offset unit (" ++ errArgText u1 ++ ", " ++
        errArgText u2 ++ ")"
  | .undefinedUnitError s => s ++ " is not defined in the unit registry"
  | .valueError msg => msg
  | .typeError msg => msg
  | .keyError msg => msg
  | .notImplementedError => "NotImplementedError"

/-- `unit_registry(s)._units`: normalize the spelling, then parse; an
unknown name raises `UndefinedUnitError` (`pintarray.py:12-29`). -/
def registryUnits (s : String) : Except PintError UnitsContainer :=
  match parseUnit (normalize s) with
  | some uc => .ok uc
  | none => .error (.undefinedUnitError s)

/-- A unit-carrying array: an `xr.DataArray` whose `attrs` carry a
`units` string.  All arrays handled by the claims carry units, so the
metadata key is modelled as always present. -/
structure PintArray where
  values : List ℚ
  units : String
deriving DecidableEq

/-- The right operand of a binary operation: another unit-carrying
array, or a bare (unit-less) numeric scalar.  pint `Unit` operands are
not modelled; no claim involves them. -/
inductive Operand
  | arr (a : PintArray)
  | scalar (q : ℚ)
deriving DecidableEq

/-- The mutable registry configuration: pint's
`autoconvert_offset_to_baseunit` flag read by `ok_for_muldiv`. -/
structure Registry where
  autoconvert_offset_to_baseunit : Bool

/-- Identities of the arithmetic callables the module passes around and
compares.  `xr*` are the `xr.DataArray` bound operator methods the
dunder methods pass to `_add_sub` / `_mul_div`; `op*` are the functions
from Python's `operator` module that `_add_sub` / `_mul_div` compare
against.  They are distinct objects in Python, hence distinct
constructors here. -/
inductive ArithFn
  | xrAdd
  | xrSub
  | xrIadd
  | xrIsub
  | xrMul
  | xrImul
  | xrTruediv
  | xrItruediv
  | opSub
  | opMul
  | opImul
  | opIdiv
deriving DecidableEq

/-- Elementwise numeric meaning of each arithmetic callable. -/
def arithFn : ArithFn → ℚ → ℚ → ℚ
  | .xrAdd => (· + ·)
  | .xrIadd => (· + ·)
  | .xrSub => (· - ·)
  | .xrIsub => (· - ·)
  | .opSub => (· - ·)
  | .xrMul => (· * ·)
  | .xrImul => (· * ·)
  | .opMul => (· * ·)
  | .opImul => (· * ·)
  | .xrTruediv => (· / ·)
  | .xrItruediv => (· / ·)
  | .opIdiv => (· / ·)

/-- The `units_op` argument of `_mul_div` (`operator.mul` or
`operator.truediv` applied to unit containers). -/
inductive UnitsOp
  | mulU
  | divU
deriving DecidableEq

def applyUnitsOp : UnitsOp → UnitsContainer → UnitsContainer → UnitsContainer
  | .mulU => ucMul
  | .divU => ucDiv

/-- `op(self, other)` on two aligned arrays: elementwise combination. -/
def zipArith (op : ArithFn) (a b : List ℚ) : List ℚ :=
  List.zipWith (arithFn op) a b

/-- `op(self, other)` against a bare scalar: broadcast over the array. -/
def mapArith (op : ArithFn) (a : List ℚ) (q : ℚ) : List ℚ :=
  a.map (fun v => arithFn op v q)

/-- The comparison operators routed through `PintArray.compare`. -/
inductive CmpOp
  | lt
  | le
  | ge
  | gt
  | eq
  | ne
deriving DecidableEq

/-- Elementwise boolean meaning of a comparison operator. -/
def cmpFn : CmpOp → ℚ → ℚ → Bool
  | .lt => fun x y => decide (x < y)
  | .le => fun x y => decide (x ≤ y)
  | .ge => fun x y => decide (y ≤ x)
  | .gt => fun x y => decide (y < x)
  | .eq => fun x y => decide (x = y)
  | .ne => fun x y => decide (x ≠ y)

end Pintarray

deriving instance DecidableEq for Except

namespace Pintarray

theorem except_bind_ok {ε α β : Type} (a : α) (f : α → Except ε β) :
    (Except.ok a >>= f : Except ε β) = f a := rfl

theorem except_bind_error {ε α β : Type} (e : ε) (f : α → Except ε β) :
    (Except.error e >>= f : Except ε β) = .error e := rfl

theorem except_pure {ε α : Type} (a : α) :
    (pure a : Except ε α) = Except.ok a := rfl

theorem except_throw {ε α : Type} (e : ε) :
    (throw e : Except ε α) = Except.error e := rfl

attribute [simp] except_bind_ok except_bind_error except_pure except_throw

end Pintarray

namespace Pintarray

/-- `Quantity` (pintarray.py:83-84): construct a unit-tagged array. -/
def Quantity (values : List ℚ) (units : String) : PintArray :=
  ⟨values, units⟩

/-- `get_units` (pintarray.py:407-408), also the `PintArray._units`
property (pintarray.py:364-366): the parsed decomposition of the
array's `units` attribute, via the registry's normalizing `__call__`. -/
def get_units (pa : PintArray) : Except PintError UnitsContainer :=
  registryUnits pa.units

/-- `get_dimensionality` (pintarray.py:91-92).  pint's
`unit_registry.get_dimensionality` parses the raw attrs string (the
`%`/`°` substitution lives only in the overridden `__call__`). -/
def get_dimensionality (pa : PintArray) : Except PintError Dim :=
  match parseUnit pa.units with
  | some uc => .ok (dimOfUC uc)
  | none => .error (.undefinedUnitError pa.units)

/-- `get_delta_units` (pintarray.py:421-423): component names of the
parsed units that start with `delta_`. -/
def get_delta_units (pa : PintArray) : Except PintError (List String) := do
  let uc ← registryUnits pa.units
  pure ((uc.map (fun p => p.1)).filter (fun u => String.isPrefixOf "delta_" u))

/-- `get_non_multiplicative_units` (pintarray.py:426-428): component
names whose registry definition is not multiplicative. -/
def get_non_multiplicative_units (pa : PintArray) : Except PintError (List String) := do
  let uc ← registryUnits pa.units
  pure ((uc.map (fun p => p.1)).filter (fun u => !(infoOf u).is_multiplicative))

/-- `is_dimensionless` (pintarray.py:415-418): reduce to root units and
test for an empty dimensionality. -/
def is_dimensionless (pa : PintArray) : Except PintError Bool := do
  let uc ← registryUnits pa.units
  pure (decide (dimOfUC (get_root_units uc).2 = ⟨0, 0, 0⟩))

/-- `has_compatible_delta` (pintarray.py:95-107): does `pa` carry a
`delta_` unit compatible with the offset unit `unit`?  The slow path
compares the reference decomposition of each delta component with that
of the offset unit. -/
def has_compatible_delta (pa : PintArray) (unit : String) : Except PintError Bool := do
  let deltas ← get_delta_units pa
  if ("delta_" ++ unit) ∈ deltas then pure true
  else do
    let ucU ← registryUnits unit
    deltas.anyM (fun d => do
      let ucD ← registryUnits d
      pure (decide (ucReference ucD = ucReference ucU)))

/-- Modelled from the spec: the registry's `convert` fails with
`DimensionalityError` when the two dimensionalities differ and
otherwise applies the registered affine conversion elementwise.  pint
parses the raw unit strings here (no symbol substitution). -/
def convert (from_units to_units : String) : Except PintError (ℚ → ℚ) := do
  let ucF ← match parseUnit from_units with
    | some uc => pure uc
    | none => throw (.undefinedUnitError from_units)
  let ucT ← match parseUnit to_units with
    | some uc => pure uc
    | none => throw (.undefinedUnitError to_units)
  if dimOfUC ucF ≠ dimOfUC ucT then
    throw (.dimensionalityError (.uc ucF) (.uc ucT)
      (some (dimOfUC ucF)) (some (dimOfUC ucT)))
  else
    pure (fun v =>
      (v * rootScaleOf ucF + offsetOfUC ucF - offsetOfUC ucT) / rootScaleOf ucT)

/-- `data_array_to_units` (pintarray.py:57-72).  Targets given as
containers elsewhere in the module arrive through `str()`, i.e. as
their rendering.  When the parsed decompositions coincide the value
itself is returned, even in copy mode; otherwise the registry
conversion is applied elementwise and the units metadata replaced.
The deep copy taken in copy mode is invisible under value semantics,
so `inplace` does not change the returned value. -/
def data_array_to_units (value : PintArray) (to_units : String) (inplace : Bool) :
    Except PintError PintArray := do
  let ucV ← registryUnits value.units
  let ucT ← registryUnits to_units
  if ucV = ucT then pure value
  else do
    let new := if inplace then value else value
    let conv ← convert new.units to_units
    pure ⟨new.values.map conv, to_units⟩

/-- `is_valid_unit` (pintarray.py:42-54): substitute the reserved
symbols, call the registry, and treat only `UndefinedUnitError` as
falsity; any other exception would propagate. -/
def is_valid_unit (unit_string : String) : Except PintError Bool :=
  match registryUnits (normalize unit_string) with
  | .error (.undefinedUnitError _) => .ok false
  | .error e => .error e
  | .ok _ => .ok true

/-- `PintArray.to_units` (pintarray.py:288-322): delegate to
`data_array_to_units`, catching `pint.DimensionalityError` and
re-raising it as `ValueError(str(err))`; every other exception
propagates unchanged.  (The `KeyError` guard for missing units
metadata is unreachable here because the model's arrays always carry
units.) -/
def PintArray.to_units (self : PintArray) (units : String) (inplace : Bool) :
    Except PintError PintArray :=
  match data_array_to_units self units inplace with
  | .error (.dimensionalityError u1 u2 d1 d2) =>
      .error (.valueError (PintError.message (.dimensionalityError u1 u2 d1 d2)))
  | r => r

/-- `PintArray.to` (pintarray.py:342-343): copying conversion. -/
def PintArray.to (self : PintArray) (other : String) : Except PintError PintArray :=
  PintArray.to_units self other false

/-- `PintArray.ito` (pintarray.py:345-346): in-place conversion. -/
def PintArray.ito (self : PintArray) (units : String) : Except PintError PintArray :=
  PintArray.to_units self units true

/-- `PintArray.to_root_units` (pintarray.py:348-350): the root container
is handed to `to_units`, which stringifies it. -/
def PintArray.to_root_units (self : PintArray) : Except PintError PintArray := do
  let uc ← get_units self
  PintArray.to_units self (render (get_root_units uc).2) false

/-- `PintArray.ito_root_units` (pintarray.py:352-354). -/
def PintArray.ito_root_units (self : PintArray) : Except PintError PintArray := do
  let uc ← get_units self
  PintArray.to_units self (render (get_root_units uc).2) true

/-- Module-level `to_root_units` (pintarray.py:411-412). -/
def to_root_units (pa : PintArray) : Except PintError PintArray :=
  PintArray.to_root_units pa

/-- `ok_for_muldiv` (pintarray.py:431-444): an operand is safe for
multiplication/division iff it has no offset component, or exactly one
offset component which is the only unit factor, has exponent one, and
the registry's `autoconvert_offset_to_baseunit` flag is set. -/
def ok_for_muldiv (reg : Registry) (pa : PintArray) : Except PintError Bool := do
  let nonMul ← get_non_multiplicative_units pa
  let numOffsetUnits := nonMul.length
  if numOffsetUnits > 1 then pure false
  else if numOffsetUnits = 1 then do
    let uc ← registryUnits pa.units
    let numUnitFactors := uc.length
    if numUnitFactors > 1 then pure false
    else if numUnitFactors = 1 ∧ ¬reg.autoconvert_offset_to_baseunit then pure false
    else if (uc.map (fun p => p.2)).headD 1 ≠ 1 then pure false
    else pure true
  else pure true

/-- `PintArray._add_sub` (pintarray.py:159-233).  The callable received
as `op` is an `xr.DataArray` operator method, and the source's
`op == operator.sub` test compares it against `operator.sub` by object
identity.  `get_delta_units` and `has_compatible_delta` raise only on
unit strings that fail to parse, which the dimensionality check has
already ruled out when they are consulted, so those queries are hoisted
out of the `elif` chain to keep the chain's conditions pure; Python's
lazy `and` evaluates them in the same states. -/
def PintArray.add_sub (self : PintArray) (other : Operand) (op : ArithFn) :
    Except PintError PintArray :=
  match other with
  | .arr o => do
    let dimS ← get_dimensionality self
    let dimO ← get_dimensionality o
    if dimS ≠ dimO then do
      let us ← get_units self
      let uo ← get_units o
      throw (.dimensionalityError (.uc us) (.uc uo) (some dimS) (some dimO))
    else do
      let selfNonMul ← get_non_multiplicative_units self
      let otherNonMul ← get_non_multiplicative_units o
      let us ← get_units self
      let uo ← get_units o
      let selfDeltas ← get_delta_units self
      let otherDeltas ← get_delta_units o
      let hcdOther ← if selfNonMul.length = 1 then
          has_compatible_delta o (selfNonMul.headD "") else pure false
      let hcdSelf ← if otherNonMul.length = 1 then
          has_compatible_delta self (otherNonMul.headD "") else pure false
      if selfNonMul.isEmpty ∧ otherNonMul.isEmpty then
        if us = uo then
          pure ⟨zipArith op self.values o.values, self.units⟩
        else if ¬selfDeltas.isEmpty ∧ otherDeltas.isEmpty then do
          let s ← PintArray.to self o.units
          pure ⟨zipArith op s.values o.values, o.units⟩
        else do
          let o2 ← data_array_to_units o (render us) false
          pure ⟨zipArith op self.values o2.values, self.units⟩
      else if op = .opSub ∧ selfNonMul.length = 1 ∧
          ucExp us (selfNonMul.headD "") = 1 ∧ ¬hcdOther then
        if us = uo then
          pure ⟨zipArith op self.values o.values, self.units⟩
        else do
          let o2 ← data_array_to_units o (render us) false
          pure ⟨zipArith op self.values o2.values, self.units⟩
      else if op = .opSub ∧ otherNonMul.length = 1 ∧
          ucExp uo (otherNonMul.headD "") = 1 ∧ ¬hcdSelf then do
        let o2 ← data_array_to_units o (render us) false
        pure ⟨zipArith op self.values o2.values, self.units⟩
      else if selfNonMul.length = 1 ∧ ucExp us (selfNonMul.headD "") = 1 ∧ hcdOther then do
        let toU := ucRename us (selfNonMul.headD "") ("delta_" ++ selfNonMul.headD "")
        let o2 ← data_array_to_units o (render toU) false
        pure ⟨zipArith op self.values o2.values, self.units⟩
      else if otherNonMul.length = 1 ∧ ucExp uo (otherNonMul.headD "") = 1 ∧ hcdSelf then do
        let toU := ucRename uo (otherNonMul.headD "") ("delta_" ++ otherNonMul.headD "")
        let s ← PintArray.to self (render toU)
        pure ⟨zipArith op s.values o.values, o.units⟩
      else
        throw (.offsetUnitCalculusError (.uc us) (.uc uo))
  | .scalar q =>
    if q = 0 then pure ⟨mapArith op self.values 0, ""⟩
    else do
      let dless ← is_dimensionless self
      if dless then do
        let s ← PintArray.to self ""
        pure ⟨mapArith op s.values q, ""⟩
      else do
        let us ← get_units self
        throw (.dimensionalityError (.uc us) (.str "dimensionless") none none)

/-- `PintArray._mul_div` (pintarray.py:241-286).  `magnitude_op` is an
`xr.DataArray` operator method; the membership tests against
`operator.mul` / `operator.imul` / `operator.idiv` compare function
identities.  pint `Unit` operands (turned into `Quantity(1., ...)` by
the source) are not modelled; `unit_registry('')._units` is the empty
container. -/
def PintArray.mul_div (reg : Registry) (self : PintArray) (other : Operand)
    (magnitude_op : ArithFn) (units_op : UnitsOp) : Except PintError PintArray := do
  let offsetUnitsSelf ← get_non_multiplicative_units self
  match other with
  | .arr o => do
    let okS ← ok_for_muldiv reg self
    if ¬okS then
      throw (.offsetUnitCalculusError (.str self.units) (.str o.units))
    else do
      let us ← get_units self
      let newSelf ←
        if offsetUnitsSelf.length = 1 ∧ us.length = 1 then
          if magnitude_op = .opImul ∨ magnitude_op = .opIdiv then
            PintArray.ito_root_units self
          else PintArray.to_root_units self
        else pure self
      let okO ← ok_for_muldiv reg o
      if ¬okO then
        throw (.offsetUnitCalculusError (.str self.units) (.str o.units))
      else do
        let otherNonMul ← get_non_multiplicative_units o
        let uco ← get_units o
        let o2 ← if otherNonMul.length = 1 ∧ uco.length = 1 then to_root_units o else pure o
        let uco2 ← get_units o2
        pure ⟨zipArith magnitude_op newSelf.values o2.values,
          render (applyUnitsOp units_op us uco2)⟩
  | .scalar q => do
    let okS ← ok_for_muldiv reg self
    if ¬okS then
      throw (.offsetUnitCalculusError (.str self.units) (.str ""))
    else do
      let us ← get_units self
      if offsetUnitsSelf.length = 1 ∧
          (ucExp us (offsetUnitsSelf.headD "") ≠ 1 ∨
            ¬(magnitude_op = .opMul ∨ magnitude_op = .opImul)) then
        throw (.offsetUnitCalculusError (.str self.units) (.str ""))
      else
        pure ⟨mapArith magnitude_op self.values q,
          render (applyUnitsOp units_op us [])⟩

/-- `__add__` (pintarray.py:117-118): passes `xr.DataArray.__add__`. -/
def PintArray.add (self : PintArray) (other : Operand) : Except PintError PintArray :=
  PintArray.add_sub self other .xrAdd

/-- `__radd__ = __add__` (pintarray.py:120): the same function object. -/
def PintArray.radd : PintArray → Operand → Except PintError PintArray :=
  PintArray.add

/-- `__sub__` (pintarray.py:122-123): passes `xr.DataArray.__sub__`. -/
def PintArray.sub (self : PintArray) (other : Operand) : Except PintError PintArray :=
  PintArray.add_sub self other .xrSub

/-- `__mul__` (pintarray.py:134-136): passes `xr.DataArray.__mul__` and
`operator.mul`. -/
def PintArray.mul (reg : Registry) (self : PintArray) (other : Operand) :
    Except PintError PintArray :=
  PintArray.mul_div reg self other .xrMul .mulU

/-- `__rmul__ = __mul__` (pintarray.py:142): the same function object. -/
def PintArray.rmul : Registry → PintArray → Operand → Except PintError PintArray :=
  PintArray.mul

/-- `PintArray.compare` (pintarray.py:371-394). -/
def PintArray.compare (self : PintArray) (other : Operand) (op : CmpOp) :
    Except PintError (List Bool) :=
  match other with
  | .scalar q => do
    let dless ← is_dimensionless self
    if dless then do
      let s ← PintArray.to_units self "" false
      pure (s.values.map (fun v => cmpFn op v q))
    else
      throw (.valueError "Cannot compare non-dimensionless PintArray and scalar")
  | .arr o => do
    let us ← get_units self
    let uo ← get_units o
    if us = uo then pure (List.zipWith (cmpFn op) self.values o.values)
    else do
      let dimS ← get_dimensionality self
      let dimO ← get_dimensionality o
      if dimS = dimO then do
        let s ← PintArray.to_root_units self
        let o2 ← PintArray.to_root_units o
        pure (List.zipWith (cmpFn op) s.values o2.values)
      else
        throw (.dimensionalityError (.uc us) (.uc uo) (some dimS) (some dimO))

/-- `__lt__` (pintarray.py:389). -/
def PintArray.lt (self : PintArray) (other : Operand) : Except PintError (List Bool) :=
  PintArray.compare self other .lt

/-- `__le__` (pintarray.py:390). -/
def PintArray.le (self : PintArray) (other : Operand) : Except PintError (List Bool) :=
  PintArray.compare self other .le

/-- `__ge__` (pintarray.py:391). -/
def PintArray.ge (self : PintArray) (other : Operand) : Except PintError (List Bool) :=
  PintArray.compare self other .ge

/-- `__gt__` (pintarray.py:392). -/
def PintArray.gt (self : PintArray) (other : Operand) : Except PintError (List Bool) :=
  PintArray.compare self other .gt

/-- `__eq__` (pintarray.py:393). -/
def PintArray.eq (self : PintArray) (other : Operand) : Except PintError (List Bool) :=
  PintArray.compare self other .eq

/-- `__ne__` (pintarray.py:394). -/
def PintArray.ne (self : PintArray) (other : Operand) : Except PintError (List Bool) :=
  PintArray.compare self other .ne

/-- `PintArray.unitless` property (pintarray.py:332-336): reading it
always raises `NotImplementedError`. -/
def PintArray.unitless (_self : PintArray) : Except PintError Bool :=
  .error .notImplementedError

/-- `PintArray.dimensionless` property (pintarray.py:402-404). -/
def PintArray.dimensionless (self : PintArray) : Except PintError Bool :=
  is_dimensionless self

/-- `PintArray.magnitude` property (pintarray.py:324-326). -/
def PintArray.magnitude (self : PintArray) : List ℚ :=
  self.values

end Pintarray

namespace Pintarray

/-! ### Helper lemmas about normalization -/

theorem pyReplaceChar_mem {c x : Char} {repl l : List Char}
    (hx : x ∈ pyReplaceChar c repl l) : x ∈ repl ∨ (x ∈ l ∧ x ≠ c) := by
  induction l with
  | nil => cases hx
  | cons y ys ih =>
    simp only [pyReplaceChar, List.mem_append] at hx
    rcases hx with hx | hx
    · by_cases hy : y = c
      · rw [if_pos hy] at hx
        exact Or.inl hx
      · rw [if_neg hy] at hx
        simp only [List.mem_singleton] at hx
        subst hx
        exact Or.inr ⟨List.mem_cons_self _ _, hy⟩
    · rcases ih hx with h | ⟨hmem, hne⟩
      · exact Or.inl h
      · exact Or.inr ⟨List.mem_cons_of_mem _ hmem, hne⟩

theorem pyReplaceChar_id {c : Char} {repl l : List Char}
    (h : ∀ x ∈ l, x ≠ c) : pyReplaceChar c repl l = l := by
  induction l with
  | nil => rfl
  | cons y ys ih =>
    have hy : y ≠ c := h y (List.mem_cons_self _ _)
    simp only [pyReplaceChar, if_neg hy, List.singleton_append, List.cons.injEq, true_and]
    exact ih (fun x hx => h x (List.mem_cons_of_mem _ hx))

/-- After one pass of the substitution no reserved symbol is left, so a
second pass is the identity. -/
theorem normalize_idem (s : String) : normalize (normalize s) = normalize s := by
  unfold normalize
  have hpct : ∀ x ∈ "percent".data, x ≠ '%' ∧ x ≠ '°' := by decide
  have hdeg : ∀ x ∈ "degree".data, x ≠ '%' ∧ x ≠ '°' := by decide
  set l1 := pyReplaceChar '%' "percent".data s.data with hl1
  set l2 := pyReplaceChar '°' "degree".data l1 with hl2
  have h1 : ∀ x ∈ l1, x ≠ '%' := by
    intro x hx
    rcases pyReplaceChar_mem hx with h | ⟨_, hne⟩
    · exact (hpct x h).1
    · exact hne
  have h2 : ∀ x ∈ l2, x ≠ '%' ∧ x ≠ '°' := by
    intro x hx
    rcases pyReplaceChar_mem hx with h | ⟨hmem, hne⟩
    · exact hdeg x h
    · exact ⟨h1 x hmem, hne⟩
  show (⟨pyReplaceChar '°' "degree".data
      (pyReplaceChar '%' "percent".data (String.mk l2).data)⟩ : String) = ⟨l2⟩
  have hdata : (String.mk l2).data = l2 := rfl
  rw [hdata, pyReplaceChar_id (fun x hx => (h2 x hx).1),
    pyReplaceChar_id (fun x hx => (h2 x hx).2)]

/-! ### Helper lemmas about the unit table and parsing -/

theorem unitTable_facts : ∀ p ∈ unitTable,
    normalize p.1 = p.1 ∧
    rootContainerOf [(p.1, 1)] = p.2.root_uc ∧
    parseUnit (render p.2.root_uc) = some p.2.root_uc ∧
    normalize (render p.2.root_uc) = render p.2.root_uc ∧
    dimOfUC [(p.1, 1)] = dimOfUC p.2.root_uc := by decide

theorem rootScaleOf_single (u : String) :
    rootScaleOf [(u, 1)] = (infoOf u).root_scale := by
  simp [rootScaleOf, zpow_one]

theorem offsetOf_single (u : String) :
    offsetOfUC [(u, 1)] = (infoOf u).root_offset := rfl

theorem unitTable_qfacts : ∀ p ∈ unitTable,
    0 < p.2.root_scale ∧ rootScaleOf p.2.root_uc = 1 ∧ offsetOfUC p.2.root_uc = 0 := by
  have hm1 : (infoOf "meter").root_scale = 1 := rfl
  have hm2 : (infoOf "meter").root_offset = 0 := rfl
  have hs1 : (infoOf "second").root_scale = 1 := rfl
  have hs2 : (infoOf "second").root_offset = 0 := rfl
  have hk1 : (infoOf "kelvin").root_scale = 1 := rfl
  have hk2 : (infoOf "kelvin").root_offset = 0 := rfl
  have hc1 : (infoOf "count").root_scale = 1 := rfl
  have hc2 : (infoOf "count").root_offset = 0 := rfl
  intro p hp
  simp only [unitTable] at hp
  fin_cases hp <;>
    exact ⟨by norm_num, by norm_num [rootScaleOf_single, hm1, hs1, hk1, hc1],
      by norm_num [offsetOf_single, hm2, hs2, hk2, hc2]⟩

theorem parseUnit_empty {s : String} {uc : UnitsContainer}
    (h : parseUnit s = some uc) (hs : s = "" ∨ s = "dimensionless") : uc = [] := by
  unfold parseUnit at h
  rw [if_pos hs] at h
  exact (Option.some_inj.mp h).symm

theorem parseUnit_shape {s : String} {uc : UnitsContainer} (h : parseUnit s = some uc) :
    uc = [] ∨ ∃ p, p ∈ unitTable ∧
      unitTable.find? (fun q => q.1 = s) = some p ∧ p.1 = s ∧ uc = [(s, 1)] := by
  by_cases hs : s = "" ∨ s = "dimensionless"
  · exact Or.inl (parseUnit_empty h hs)
  · right
    unfold parseUnit at h
    rw [if_neg hs] at h
    rcases Option.map_eq_some'.mp h with ⟨p, hfind, hval⟩
    have hmem := List.mem_of_find?_eq_some hfind
    have hp1 : p.1 = s := by simpa using List.find?_some hfind
    refine ⟨p, hmem, hfind, hp1, ?_⟩
    rw [← hval, hp1]

theorem parse_normalize_id {s : String} {uc : UnitsContainer}
    (h : parseUnit s = some uc) : normalize s = s := by
  rcases parseUnit_shape h with huc | ⟨p, hmem, _, hp1, _⟩
  · by_cases hs : s = "" ∨ s = "dimensionless"
    · rcases hs with rfl | rfl <;> decide
    · unfold parseUnit at h
      rw [if_neg hs] at h
      rcases Option.map_eq_some'.mp h with ⟨p, _, hval⟩
      rw [← hval] at huc
      cases huc
  · rw [← hp1]
    exact (unitTable_facts p hmem).1

theorem parse_registry {s : String} {uc : UnitsContainer}
    (h : parseUnit s = some uc) : registryUnits s = .ok uc := by
  unfold registryUnits
  rw [parse_normalize_id h, h]

theorem infoOf_of_find {s : String} {p : String × UnitInfo}
    (hfind : unitTable.find? (fun q => q.1 = s) = some p) : infoOf s = p.2 := by
  unfold infoOf
  rw [hfind]
  rfl

/-- Everything needed about the root reduction of a parseable unit
string: the root container reparses from its rendering, dimensionality
is preserved, root units have trivial scale and offset, and the scale
factor of the original container is positive. -/
theorem root_facts {s : String} {uc : UnitsContainer} (h : parseUnit s = some uc) :
    parseUnit (render (rootContainerOf uc)) = some (rootContainerOf uc) ∧
    normalize (render (rootContainerOf uc)) = render (rootContainerOf uc) ∧
    dimOfUC uc = dimOfUC (rootContainerOf uc) ∧
    rootScaleOf (rootContainerOf uc) = 1 ∧
    offsetOfUC (rootContainerOf uc) = 0 ∧
    0 < rootScaleOf uc := by
  rcases parseUnit_shape h with rfl | ⟨p, hmem, hfind, hp1, rfl⟩
  · exact ⟨by decide, by decide, rfl, rfl, rfl, by norm_num [rootScaleOf]⟩
  · have hA := unitTable_facts p hmem
    have hQ := unitTable_qfacts p hmem
    have hinfo := infoOf_of_find hfind
    have hrc : rootContainerOf [(s, 1)] = p.2.root_uc := by
      rw [← hp1]
      exact hA.2.1
    refine ⟨?_, ?_, ?_, ?_, ?_, ?_⟩
    · rw [hrc]; exact hA.2.2.1
    · rw [hrc]; exact hA.2.2.2.1
    · rw [hrc, ← hp1]; exact hA.2.2.2.2
    · rw [hrc]; exact hQ.2.1
    · rw [hrc]; exact hQ.2.2
    · rw [rootScaleOf_single, hinfo]; exact hQ.1

end Pintarray

namespace Pintarray

/-- Behaviour of `to_root_units` on any array whose unit string parses:
it succeeds, and the values are transformed by the affine root
conversion determined by the decomposition alone. -/
theorem to_root_units_spec {x : PintArray} {uc : UnitsContainer}
    (h : parseUnit x.units = some uc) :
    ∃ x2, PintArray.to_root_units x = .ok x2 ∧
      x2.values = x.values.map (fun v => v * rootScaleOf uc + offsetOfUC uc) := by
  have hreg := parse_registry h
  obtain ⟨hrp, hrn, hrd, hrs, hro, _⟩ := root_facts h
  have hregroot : registryUnits (render (rootContainerOf uc)) = .ok (rootContainerOf uc) := by
    unfold registryUnits
    rw [hrn, hrp]
  by_cases hcase : uc = rootContainerOf uc
  · have hdau : data_array_to_units x (render (rootContainerOf uc)) false = .ok x := by
      unfold data_array_to_units
      rw [hreg, except_bind_ok, hregroot, except_bind_ok, if_pos hcase]
      rfl
    refine ⟨x, ?_, ?_⟩
    · unfold PintArray.to_root_units
      rw [show get_units x = .ok uc from hreg, except_bind_ok]
      show PintArray.to_units x (render (get_root_units uc).2) false = .ok x
      unfold PintArray.to_units
      rw [show (get_root_units uc).2 = rootContainerOf uc from rfl, hdau]
    · have hs1 : rootScaleOf uc = 1 := by rw [hcase]; exact hrs
      have ho0 : offsetOfUC uc = 0 := by rw [hcase]; exact hro
      simp [hs1, ho0]
  · have hconv : convert x.units (render (rootContainerOf uc)) =
        .ok (fun v => (v * rootScaleOf uc + offsetOfUC uc -
          offsetOfUC (rootContainerOf uc)) / rootScaleOf (rootContainerOf uc)) := by
      unfold convert
      rw [h, hrp]
      simp only [except_pure, except_bind_ok]
      rw [if_neg (not_not_intro hrd)]
    have hdau : data_array_to_units x (render (rootContainerOf uc)) false =
        .ok ⟨x.values.map (fun v => (v * rootScaleOf uc + offsetOfUC uc -
          offsetOfUC (rootContainerOf uc)) / rootScaleOf (rootContainerOf uc)),
          render (rootContainerOf uc)⟩ := by
      unfold data_array_to_units
      rw [hreg, except_bind_ok, hregroot, except_bind_ok, if_neg hcase, ite_self]
      simp only [hconv, except_bind_ok, except_pure]
    refine ⟨⟨x.values.map (fun v => (v * rootScaleOf uc + offsetOfUC uc -
        offsetOfUC (rootContainerOf uc)) / rootScaleOf (rootContainerOf uc)),
        render (rootContainerOf uc)⟩, ?_, ?_⟩
    · unfold PintArray.to_root_units
      rw [show get_units x = .ok uc from hreg, except_bind_ok]
      show PintArray.to_units x (render (get_root_units uc).2) false = _
      unfold PintArray.to_units
      rw [show (get_root_units uc).2 = rootContainerOf uc from rfl, hdau]
    · simp only [hro, hrs, sub_zero, div_one]

/-- A positive rescaling with a common shift preserves every comparison
operator pointwise. -/
theorem cmpFn_affine (op : CmpOp) {s : ℚ} (o : ℚ) (hs : 0 < s) (x y : ℚ) :
    cmpFn op (x * s + o) (y * s + o) = cmpFn op x y := by
  have klt : ∀ u v : ℚ, (u * s + o < v * s + o) ↔ u < v := fun u v => by
    rw [add_lt_add_iff_right, mul_lt_mul_right hs]
  have kle : ∀ u v : ℚ, (u * s + o ≤ v * s + o) ↔ u ≤ v := fun u v => by
    rw [add_le_add_iff_right, mul_le_mul_right hs]
  have keq : ∀ u v : ℚ, (u * s + o = v * s + o) ↔ u = v := fun u v => by
    constructor
    · intro hh
      exact mul_right_cancel₀ hs.ne' (by linarith)
    · intro hh
      rw [hh]
  cases op with
  | lt => exact decide_eq_decide.mpr (klt x y)
  | le => exact decide_eq_decide.mpr (kle x y)
  | ge => exact decide_eq_decide.mpr (kle y x)
  | gt => exact decide_eq_decide.mpr (klt y x)
  | eq => exact decide_eq_decide.mpr (keq x y)
  | ne => exact decide_eq_decide.mpr (not_congr (keq x y))

/-- Elementwise comparison is invariant under applying the same
positive affine map to both operands. -/
theorem zipWith_cmp_affine (op : CmpOp) {s : ℚ} (o : ℚ) (hs : 0 < s) (l1 l2 : List ℚ) :
    List.zipWith (cmpFn op) (l1.map (fun v => v * s + o)) (l2.map (fun v => v * s + o)) =
      List.zipWith (cmpFn op) l1 l2 := by
  rw [List.zipWith_map]
  simp only [cmpFn_affine op o hs]

end Pintarray

namespace Pintarray

/-- Claim C1.  Checked against the code, both halves of the claim fail
the same way: for two `degC`-tagged arrays (one offset component,
exponent 1, no delta units on either side) *both* subtraction and
addition raise `OffsetUnitCalculusError`.  The subtraction special case
of `_add_sub` tests `op == operator.sub`, but `__sub__` passes
`xr.DataArray.__sub__`, a different function object, so the test is
never true and subtraction falls through to the same error as
addition.  This theorem evaluates the code at the failing input. -/
theorem claim_C1 :
    PintArray.sub (Quantity [100] "degC") (.arr (Quantity [100] "degC")) =
      .error (.offsetUnitCalculusError (.uc [("degC", 1)]) (.uc [("degC", 1)])) ∧
    PintArray.add (Quantity [100] "degC") (.arr (Quantity [100] "degC")) =
      .error (.offsetUnitCalculusError (.uc [("degC", 1)]) (.uc [("degC", 1)])) :=
  ⟨by decide, by decide⟩

/-- Claim C2.  Checked against the code, multiplying a `degC`-tagged
array by a bare unit-less scalar raises `OffsetUnitCalculusError`
regardless of the registry's `autoconvert_offset_to_baseunit` flag: the
scalar branch of `_mul_div` tests
`magnitude_op not in [operator.mul, operator.imul]`, but `__mul__`
passes `xr.DataArray.__mul__`, a different function object, so the
guard always fires for a single-offset-unit operand even when
`ok_for_muldiv` accepted it.  This theorem evaluates the code at the
failing input for both flag states. -/
theorem claim_C2 :
    PintArray.mul ⟨true⟩ (Quantity [100] "degC") (.scalar 2) =
      .error (.offsetUnitCalculusError (.str "degC") (.str "")) ∧
    PintArray.mul ⟨false⟩ (Quantity [100] "degC") (.scalar 2) =
      .error (.offsetUnitCalculusError (.str "degC") (.str "")) :=
  ⟨by decide, by decide⟩

/-- Claim C4: for operands with unequal dimensionalities, both addition
and subtraction raise `DimensionalityError`, and the exception carries
both parsed unit containers and both dimensionalities. -/
theorem claim_C4 : ∀ (a b : PintArray) (uca ucb : UnitsContainer),
    parseUnit a.units = some uca → parseUnit b.units = some ucb →
    dimOfUC uca ≠ dimOfUC ucb →
    PintArray.add a (.arr b) =
      .error (.dimensionalityError (.uc uca) (.uc ucb)
        (some (dimOfUC uca)) (some (dimOfUC ucb))) ∧
    PintArray.sub a (.arr b) =
      .error (.dimensionalityError (.uc uca) (.uc ucb)
        (some (dimOfUC uca)) (some (dimOfUC ucb))) := by
  intro a b uca ucb ha hb hne
  have ra := parse_registry ha
  have rb := parse_registry hb
  have hda : get_dimensionality a = .ok (dimOfUC uca) := by
    unfold get_dimensionality
    rw [ha]
  have hdb : get_dimensionality b = .ok (dimOfUC ucb) := by
    unfold get_dimensionality
    rw [hb]
  have key : ∀ op, PintArray.add_sub a (.arr b) op =
      .error (.dimensionalityError (.uc uca) (.uc ucb)
        (some (dimOfUC uca)) (some (dimOfUC ucb))) := by
    intro op
    simp only [PintArray.add_sub, hda, hdb, except_bind_ok]
    rw [if_pos hne]
    simp only [get_units, ra, rb, except_bind_ok, except_throw]
  exact ⟨key .xrAdd, key .xrSub⟩

/-- Witness for C4: adding or subtracting a `second`-tagged array
to/from a `meter`-tagged array raises `DimensionalityError` carrying
both units and both dimensionalities. -/
theorem claim_C4_witness :
    PintArray.add (Quantity [1] "meter") (.arr (Quantity [1] "second")) =
      .error (.dimensionalityError (.uc [("meter", 1)]) (.uc [("second", 1)])
        (some ⟨1, 0, 0⟩) (some ⟨0, 1, 0⟩)) ∧
    PintArray.sub (Quantity [1] "meter") (.arr (Quantity [1] "second")) =
      .error (.dimensionalityError (.uc [("meter", 1)]) (.uc [("second", 1)])
        (some ⟨1, 0, 0⟩) (some ⟨0, 1, 0⟩)) :=
  claim_C4 (Quantity [1] "meter") (Quantity [1] "second")
    [("meter", 1)] [("second", 1)] (by decide) (by decide) (by decide)

/-- Does a conversion result carry the user-facing validation error
(`ValueError`)? -/
def raisesValueError : Except PintError PintArray → Bool
  | .error (.valueError _) => true
  | _ => false

/-- Claim C5, amended.  `to_units` catches a dimensionality failure
from the conversion step and re-raises it as `ValueError` preserving
the original message; but a conversion targeting an undefined unit
string propagates the registry's raw `UndefinedUnitError` unchanged —
`to_units` catches only `pint.DimensionalityError`, and no
validation-style wrapper exists for undefined targets. -/
theorem claim_C5 :
    (∀ (x : PintArray) (target : String) (ip : Bool) (u1 u2 : ErrArg)
        (d1 d2 : Option Dim),
      data_array_to_units x target ip = .error (.dimensionalityError u1 u2 d1 d2) →
      PintArray.to_units x target ip =
        .error (.valueError (PintError.message (.dimensionalityError u1 u2 d1 d2)))) ∧
    (∀ (x : PintArray) (target : String) (ip : Bool) (uc : UnitsContainer),
      registryUnits x.units = .ok uc → parseUnit (normalize target) = none →
      PintArray.to_units x target ip = .error (.undefinedUnitError target)) := by
  constructor
  · intro x target ip u1 u2 d1 d2 h
    unfold PintArray.to_units
    rw [h]
  · intro x target ip uc hx hp
    unfold PintArray.to_units data_array_to_units
    rw [hx, except_bind_ok]
    unfold registryUnits
    rw [hp]
    rfl

/-- Counterexample to C5 as stated: converting a `meter`-tagged array
to the undefined unit `florble` surfaces the raw registry
`UndefinedUnitError`, not a validation-style `ValueError`. -/
theorem claim_C5_counterexample :
    PintArray.to_units (Quantity [1] "meter") "florble" false =
      .error (.undefinedUnitError "florble") ∧
    raisesValueError (PintArray.to_units (Quantity [1] "meter") "florble" false) = false :=
  ⟨by decide, by decide⟩

/-- Witness for the amended C5: a dimensionality failure surfaces as
`ValueError` with the conversion error's message, and an undefined
target propagates the raw registry error (also in in-place mode). -/
theorem claim_C5_witness :
    PintArray.to_units (Quantity [1] "meter") "second" false =
      .error (.valueError (PintError.message (.dimensionalityError
        (.uc [("meter", 1)]) (.uc [("second", 1)])
        (some ⟨1, 0, 0⟩) (some ⟨0, 1, 0⟩)))) ∧
    PintArray.to_units (Quantity [1] "kelvin") "florble" true =
      .error (.undefinedUnitError "florble") :=
  ⟨claim_C5.1 (Quantity [1] "meter") "second" false _ _ _ _ (by decide),
    claim_C5.2 (Quantity [1] "kelvin") "florble" true [("kelvin", 1)]
      (by decide) (by decide)⟩

/-- Claim C6: `is_valid_unit` never raises — it returns a boolean for
every input, true exactly when normalizing then parsing succeeds — and
in particular accepts `%`. -/
theorem claim_C6 :
    (∀ u, is_valid_unit u = .ok ((parseUnit (normalize u)).isSome)) ∧
    is_valid_unit "%" = .ok true := by
  refine ⟨?_, by decide⟩
  intro u
  unfold is_valid_unit registryUnits
  rw [normalize_idem]
  cases hp : parseUnit (normalize u) with
  | none => simp [hp]
  | some uc => simp [hp]

/-- Claim C7: converting an array to a target whose decomposition is
structurally equal to its own (in particular to its own unit string, in
copy mode via `to`) is a no-op returning the array itself — no
conversion, no error, and neither buffer nor unit string changes. -/
theorem claim_C7 : ∀ (x : PintArray) (u : String) (ucx ucu : UnitsContainer),
    registryUnits x.units = .ok ucx → registryUnits u = .ok ucu → ucx = ucu →
    PintArray.to x u = .ok x := by
  intro x u ucx ucu hx hu he
  subst he
  unfold PintArray.to PintArray.to_units data_array_to_units
  rw [hx, except_bind_ok, hu, except_bind_ok, if_pos rfl]
  rfl

/-- Witness for C7: `x.to(u)` with `x`'s own unit returns `x` itself. -/
theorem claim_C7_witness :
    PintArray.to (Quantity [2] "meter") "meter" = .ok (Quantity [2] "meter") :=
  claim_C7 (Quantity [2] "meter") "meter" [("meter", 1)] [("meter", 1)]
    (by decide) (by decide) rfl

/-- Claim C8: the unit-string normalization (`%` to `percent`, `°` to
`degree`) is idempotent. -/
theorem claim_C8 : ∀ u, normalize (normalize u) = normalize u :=
  normalize_idem

/-- Claim C9: `__radd__` is `__add__` and `__rmul__` is `__mul__` — the
reflected operations are the very same functions, so they produce the
same result (or the same error) on every pair of operands. -/
theorem claim_C9 :
    (∀ (a : PintArray) (o : Operand), PintArray.radd a o = PintArray.add a o) ∧
    (∀ (reg : Registry) (a : PintArray) (o : Operand),
      PintArray.rmul reg a o = PintArray.mul reg a o) :=
  ⟨fun _ _ => rfl, fun _ _ _ => rfl⟩

/-- Claim C10: reading `unitless` always raises `NotImplementedError`,
for every array, while the `dimensionless` predicate works (it returns
a boolean for every array whose units parse). -/
theorem claim_C10 :
    (∀ x : PintArray, PintArray.unitless x = .error .notImplementedError) ∧
    (∀ (x : PintArray) (uc : UnitsContainer), registryUnits x.units = .ok uc →
      PintArray.dimensionless x =
        .ok (decide (dimOfUC (get_root_units uc).2 = ⟨0, 0, 0⟩))) := by
  refine ⟨fun x => rfl, ?_⟩
  intro x uc h
  unfold PintArray.dimensionless is_dimensionless
  rw [h, except_bind_ok, except_pure]

/-- Witness for C10: on a `meter`-tagged array `unitless` raises and
`dimensionless` answers `false`. -/
theorem claim_C10_witness :
    PintArray.unitless (Quantity [1] "meter") = .error .notImplementedError ∧
    PintArray.dimensionless (Quantity [1] "meter") = .ok false :=
  ⟨claim_C10.1 (Quantity [1] "meter"),
    (claim_C10.2 (Quantity [1] "meter") [("meter", 1)] (by decide)).trans (by decide)⟩

end Pintarray

namespace Pintarray

/-- Claim C3: for every comparison operator on two unit-carrying
arrays, identical unit strings give a direct elementwise comparison;
equal dimensionalities give the comparison of the two operands reduced
to root units (which coincides with the direct comparison when the
decompositions already agree, root reduction being a common positive
affine map); unequal dimensionalities raise `DimensionalityError`; and
concretely `Quantity([1000], "meter") == Quantity([1], "kilometer")`
evaluates to true. -/
theorem claim_C3 :
    (∀ (cop : CmpOp) (a b : PintArray) (uca ucb : UnitsContainer),
      parseUnit a.units = some uca → parseUnit b.units = some ucb →
      ((a.units = b.units →
          PintArray.compare a (.arr b) cop =
            .ok (List.zipWith (cmpFn cop) a.values b.values)) ∧
        (dimOfUC uca = dimOfUC ucb →
          ∃ a2 b2, PintArray.to_root_units a = .ok a2 ∧
            PintArray.to_root_units b = .ok b2 ∧
            PintArray.compare a (.arr b) cop =
              .ok (List.zipWith (cmpFn cop) a2.values b2.values)) ∧
        (dimOfUC uca ≠ dimOfUC ucb →
          PintArray.compare a (.arr b) cop =
            .error (.dimensionalityError (.uc uca) (.uc ucb)
              (some (dimOfUC uca)) (some (dimOfUC ucb)))))) ∧
    PintArray.compare (Quantity [1000] "meter") (.arr (Quantity [1] "kilometer")) .eq =
      .ok [true] := by
  constructor
  · intro cop a b uca ucb ha hb
    have ra := parse_registry ha
    have rb := parse_registry hb
    have hda : get_dimensionality a = .ok (dimOfUC uca) := by
      unfold get_dimensionality
      rw [ha]
    have hdb : get_dimensionality b = .ok (dimOfUC ucb) := by
      unfold get_dimensionality
      rw [hb]
    refine ⟨?_, ?_, ?_⟩
    · intro hu
      have hcc : uca = ucb := by
        rw [hu] at ha
        rw [ha] at hb
        exact Option.some_inj.mp hb
      simp only [PintArray.compare]
      rw [show get_units a = .ok uca from ra, except_bind_ok,
        show get_units b = .ok ucb from rb, except_bind_ok, if_pos hcc, except_pure]
    · intro hd
      by_cases hu : uca = ucb
      · subst hu
        obtain ⟨a2, ha2, hva⟩ := to_root_units_spec ha
        obtain ⟨b2, hb2, hvb⟩ := to_root_units_spec hb
        have hpos : 0 < rootScaleOf uca := (root_facts ha).2.2.2.2.2
        refine ⟨a2, b2, ha2, hb2, ?_⟩
        simp only [PintArray.compare]
        rw [show get_units a = .ok uca from ra, except_bind_ok,
          show get_units b = .ok uca from rb, except_bind_ok, if_pos rfl]
        rw [hva, hvb, zipWith_cmp_affine cop (offsetOfUC uca) hpos, except_pure]
      · obtain ⟨a2, ha2, _⟩ := to_root_units_spec ha
        obtain ⟨b2, hb2, _⟩ := to_root_units_spec hb
        refine ⟨a2, b2, ha2, hb2, ?_⟩
        simp only [PintArray.compare]
        rw [show get_units a = .ok uca from ra, except_bind_ok,
          show get_units b = .ok ucb from rb, except_bind_ok, if_neg hu,
          hda, except_bind_ok, hdb, except_bind_ok, if_pos hd,
          ha2, except_bind_ok, hb2, except_bind_ok, except_pure]
    · intro hne
      have hu : uca ≠ ucb := by
        intro e
        rw [e] at hne
        exact hne rfl
      simp only [PintArray.compare]
      rw [show get_units a = .ok uca from ra, except_bind_ok,
        show get_units b = .ok ucb from rb, except_bind_ok, if_neg hu,
        hda, except_bind_ok, hdb, except_bind_ok, if_neg hne, except_throw]
  · simp [PintArray.compare, get_units, registryUnits, parseUnit, normalize, unitTable,
      get_dimensionality, dimOfUC, infoOf, dimAdd, dimScaled, PintArray.to_root_units,
      PintArray.to_units, data_array_to_units, convert, get_root_units, rootScaleOf,
      rootContainerOf, ucMul, ucPow, ucInsertAdd, offsetOfUC, render, Quantity,
      pyReplaceChar, cmpFn]

/-- Witness for C3: same-unit operands compare directly, and operands
of different dimensionality raise `DimensionalityError`. -/
theorem claim_C3_witness :
    PintArray.compare (Quantity [3] "second") (.arr (Quantity [4] "second")) .lt =
      .ok (List.zipWith (cmpFn .lt) [3] [4]) ∧
    PintArray.compare (Quantity [1] "meter") (.arr (Quantity [1] "second")) .eq =
      .error (.dimensionalityError (.uc [("meter", 1)]) (.uc [("second", 1)])
        (some ⟨1, 0, 0⟩) (some ⟨0, 1, 0⟩)) :=
  ⟨(claim_C3.1 .lt (Quantity [3] "second") (Quantity [4] "second")
      [("second", 1)] [("second", 1)] (by decide) (by decide)).1 rfl,
    (claim_C3.1 .eq (Quantity [1] "meter") (Quantity [1] "second")
      [("meter", 1)] [("second", 1)] (by decide) (by decide)).2.2 (by decide)⟩

end Pintarray
